import Mathlib

/-!
Verification of the fiberphotometry repository against its specification.

The repository contains no standalone implementation of the Signal
Alignment and Normalization Engine described in the specification (only a
README, a notebook of DeepLabCut driver cells, and an Arduino sketch), so
the engine operations below are modelled from the specification text, as
its design section 4.1 states them.  The Arduino sketch
(software/Arduino_code/weili_cfcCtxA_fiber_20240604.ino) is embedded
directly from its source.

Scalars (timestamps and fluorescence values) are modelled as rationals.
-/

namespace FiberPhotometry

/-- Error taxonomy of the engine, from the specification section 7. -/
inductive PipelineError where
  | EmptyWindowError
  | OutOfRangeError
  | DivisionByZeroError
  | LengthMismatchError
  | EmptyInputError
  deriving DecidableEq, Repr

/-- A Sample Stream: ordered sequence of (timestamp, value) pairs. -/
abbrev Stream := List (ℚ × ℚ)

/-- Mean of a list of rationals (0 on the empty list, which is never used). -/
def mean (l : List ℚ) : ℚ := l.sum / l.length

/-- Modelled from the spec: `normalize(stream, F0)` is missing from src.
Fails with DivisionByZeroError if F0 is zero, otherwise returns a new
stream with the same timestamps and values transformed as (v - F0) / F0. -/
def normalize (stream : Stream) (F0 : ℚ) : Except PipelineError Stream :=
  if F0 = 0 then .error .DivisionByZeroError
  else .ok (stream.map fun p => (p.1, (p.2 - F0) / F0))

/-- Values of the samples whose timestamps fall inside the window [ws, we]. -/
def samplesIn (stream : Stream) (ws we : ℚ) : List ℚ :=
  (stream.filter fun p => decide (ws ≤ p.1) && decide (p.1 ≤ we)).map Prod.snd

/-- Whether the window [ws, we] lies entirely outside the time range of the
stream (the interval from the first to the last timestamp); an empty stream
has an empty time range, so every window is outside it. -/
def outOfRange (stream : Stream) (ws we : ℚ) : Bool :=
  match stream.head?, stream.getLast? with
  | some f, some l => decide (we < f.1) || decide (ws > l.1)
  | _, _ => true

/-- Modelled from the spec: `compute_baseline(stream, window)` is missing
from src.  Fails with OutOfRangeError if the window lies entirely outside
the stream time range, with EmptyWindowError if no samples fall within the
window, and otherwise returns the mean of the values within the window. -/
def compute_baseline (stream : Stream) (ws we : ℚ) : Except PipelineError ℚ :=
  if outOfRange stream ws we then .error .OutOfRangeError
  else if (samplesIn stream ws we).isEmpty then .error .EmptyWindowError
  else .ok (mean (samplesIn stream ws we))

/-! ## Claim C1: normalize preserves timestamps and transforms values -/

/-- Claim C1: for every stream and nonzero F0, normalize returns a stream
with identical timestamps whose i-th value is (v_i - F0) / F0; on the
concrete stream [(0,1),(1,2),(2,3),(3,4)] with F0 = 3/2 it returns
[(0,-1/3),(1,1/3),(2,1),(3,5/3)]. -/
theorem normalize_pointwise (stream : Stream) (F0 : ℚ) (h : F0 ≠ 0) :
    (∃ out, normalize stream F0 = .ok out ∧
      out.map Prod.fst = stream.map Prod.fst ∧
      ∀ i : ℕ, out[i]? = (stream[i]?).map (fun p : ℚ × ℚ => (p.1, (p.2 - F0) / F0))) ∧
    normalize [(0, 1), (1, 2), (2, 3), (3, 4)] (3/2) =
      .ok [(0, -1/3), (1, 1/3), (2, 1), (3, 5/3)] := by
  constructor
  · refine ⟨stream.map fun p => (p.1, (p.2 - F0) / F0), ?_, ?_, ?_⟩
    · simp [normalize, h]
    · simp
    · intro i
      simp [List.getElem?_map]
  · norm_num [normalize]

/-- Witness for C1 at the concrete scenario of the specification. -/
theorem normalize_pointwise_witness :
    (∃ out, normalize [(0, 1), (1, 2), (2, 3), (3, 4)] (3/2) = .ok out ∧
      out.map Prod.fst = ([(0, 1), (1, 2), (2, 3), (3, 4)] : Stream).map Prod.fst ∧
      ∀ i : ℕ, out[i]? = (([(0, 1), (1, 2), (2, 3), (3, 4)] : Stream)[i]?).map
        (fun p : ℚ × ℚ => (p.1, (p.2 - 3/2) / (3/2)))) ∧
    normalize [(0, 1), (1, 2), (2, 3), (3, 4)] (3/2) =
      .ok [(0, -1/3), (1, 1/3), (2, 1), (3, 5/3)] :=
  normalize_pointwise [(0, 1), (1, 2), (2, 3), (3, 4)] (3/2) (by norm_num)

/-! ## Claim C2: normalize round-trip law -/

/-- Claim C2: for every stream and nonzero F0, rescaling each value of the
normalized stream by F0 and adding F0 back reconstructs the original
stream exactly. -/
theorem normalize_roundtrip (stream : Stream) (F0 : ℚ) (h : F0 ≠ 0)
    (out : Stream) (hout : normalize stream F0 = .ok out) :
    out.map (fun p => (p.1, p.2 * F0 + F0)) = stream := by
  have hdef : out = stream.map fun p : ℚ × ℚ => (p.1, (p.2 - F0) / F0) := by
    unfold normalize at hout
    rw [if_neg h] at hout
    exact (Except.ok.inj hout).symm
  subst hdef
  rw [List.map_map]
  have : ∀ p : ℚ × ℚ,
      ((fun p : ℚ × ℚ => (p.1, p.2 * F0 + F0)) ∘
        fun p : ℚ × ℚ => (p.1, (p.2 - F0) / F0)) p = p := by
    intro p
    simp only [Function.comp_apply]
    rw [Prod.ext_iff]
    constructor
    · rfl
    · field_simp
  have hfun : ((fun p : ℚ × ℚ => (p.1, p.2 * F0 + F0)) ∘
      fun p : ℚ × ℚ => (p.1, (p.2 - F0) / F0)) = id := funext this
  rw [hfun, List.map_id]

/-- Witness for C2 at the concrete scenario of the specification. -/
theorem normalize_roundtrip_witness :
    ([(0, -1/3), (1, 1/3), (2, 1), (3, 5/3)] : Stream).map
        (fun p => (p.1, p.2 * (3/2) + 3/2)) =
      [(0, 1), (1, 2), (2, 3), (3, 4)] :=
  normalize_roundtrip [(0, 1), (1, 2), (2, 3), (3, 4)] (3/2) (by norm_num)
    [(0, -1/3), (1, 1/3), (2, 1), (3, 5/3)] (by norm_num [normalize])

/-! ## Claim C7: normalize fails exactly on F0 = 0, purely -/

/-- Claim C7: normalize fails with DivisionByZeroError exactly when F0 is
zero, DivisionByZeroError is the only error it can surface, and for
nonzero F0 it returns a result; the model is a pure function of its
arguments, so no state is mutated on failure. -/
theorem normalize_error_iff (stream : Stream) (F0 : ℚ) :
    (normalize stream F0 = .error .DivisionByZeroError ↔ F0 = 0) ∧
    (∀ e, normalize stream F0 = .error e → e = .DivisionByZeroError) ∧
    (F0 ≠ 0 → ∃ out, normalize stream F0 = .ok out) := by
  refine ⟨⟨fun h => ?_, fun h => ?_⟩, fun e he => ?_, fun h => ?_⟩
  · by_contra hF
    simp [normalize, hF] at h
  · simp [normalize, h]
  · by_cases hF : F0 = 0
    · simpa [normalize, hF] using he.symm
    · simp [normalize, hF] at he
  · exact ⟨stream.map fun p : ℚ × ℚ => (p.1, (p.2 - F0) / F0),
      by simp [normalize, h]⟩

/-- Witness for C7 at concrete inputs: F0 = 0 fails, F0 = 3/2 succeeds. -/
theorem normalize_error_iff_witness :
    normalize [(0, 1)] 0 = .error .DivisionByZeroError ∧
    ∃ out, normalize [(0, 1)] (3/2) = .ok out :=
  ⟨(normalize_error_iff [(0, 1)] 0).1.2 rfl,
   (normalize_error_iff [(0, 1)] (3/2)).2.2 (by norm_num)⟩

/-! ## Claim C3: compute_baseline lies between min and max -/

instance : Std.Antisymm ((· : ℚ) ≤ ·) := ⟨fun h1 h2 => le_antisymm h1 h2⟩

/-- A lower bound on every element of a nonempty list bounds its mean. -/
theorem le_mean_of_forall_le (l : List ℚ) (hl : l ≠ []) (a : ℚ)
    (h : ∀ x ∈ l, a ≤ x) : a ≤ mean l := by
  have hlen : (0 : ℚ) < l.length := by
    exact_mod_cast List.length_pos.mpr hl
  have hsum : l.length • a ≤ l.sum := List.card_nsmul_le_sum l a h
  rw [mean, le_div_iff₀ hlen]
  calc a * l.length = l.length • a := by rw [nsmul_eq_mul, mul_comm]
    _ ≤ l.sum := hsum

/-- An upper bound on every element of a nonempty list bounds its mean. -/
theorem mean_le_of_forall_le (l : List ℚ) (hl : l ≠ []) (b : ℚ)
    (h : ∀ x ∈ l, x ≤ b) : mean l ≤ b := by
  have hlen : (0 : ℚ) < l.length := by
    exact_mod_cast List.length_pos.mpr hl
  have hsum : l.sum ≤ l.length • b := List.sum_le_card_nsmul l b h
  rw [mean, div_le_iff₀ hlen]
  calc l.sum ≤ l.length • b := hsum
    _ = b * l.length := by rw [nsmul_eq_mul, mul_comm]

/-- Claim C3: for every window that is inside the stream time range and
contains at least one sample, compute_baseline returns a scalar F0 lying
between the minimum and the maximum of the sample values falling within
the window. -/
theorem compute_baseline_between (stream : Stream) (ws we : ℚ)
    (hin : outOfRange stream ws we = false)
    (hne : samplesIn stream ws we ≠ []) :
    ∃ F0, compute_baseline stream ws we = .ok F0 ∧
      (∀ m, (samplesIn stream ws we).min? = some m → m ≤ F0) ∧
      (∀ M, (samplesIn stream ws we).max? = some M → F0 ≤ M) := by
  refine ⟨mean (samplesIn stream ws we), ?_, ?_, ?_⟩
  · simp [compute_baseline, hin, List.isEmpty_iff, hne]
  · intro m hm
    have hfacts := (List.min?_eq_some_iff le_refl min_choice
      (fun _ _ _ => le_min_iff)).mp hm
    exact le_mean_of_forall_le _ hne m hfacts.2
  · intro M hM
    have hfacts := (List.max?_eq_some_iff le_refl max_choice
      (fun _ _ _ => max_le_iff)).mp hM
    exact mean_le_of_forall_le _ hne M hfacts.2

/-- Witness for C3: the window [0, 1] of the concrete stream of the
specification, whose baseline is 3/2. -/
theorem compute_baseline_between_witness :
    ∃ F0, compute_baseline [(0, 1), (1, 2), (2, 3), (3, 4)] 0 1 = .ok F0 ∧
      (∀ m, (samplesIn [(0, 1), (1, 2), (2, 3), (3, 4)] 0 1).min? = some m → m ≤ F0) ∧
      (∀ M, (samplesIn [(0, 1), (1, 2), (2, 3), (3, 4)] 0 1).max? = some M → F0 ≤ M) :=
  compute_baseline_between [(0, 1), (1, 2), (2, 3), (3, 4)] 0 1
    (by decide) (by decide)

/-! ## Claim C4: error cases of compute_baseline -/

/-- Claim C4 counterexample: for the stream [(0, 1)] and the window
[5, 6], no samples fall within the window, yet compute_baseline fails
with OutOfRangeError rather than EmptyWindowError, because the window
lies entirely outside the stream time range; so EmptyWindowError is not
raised exactly when no samples fall within the window. -/
theorem compute_baseline_error_cex :
    samplesIn [((0 : ℚ), (1 : ℚ))] 5 6 = [] ∧
    compute_baseline [((0 : ℚ), (1 : ℚ))] 5 6 = .error .OutOfRangeError ∧
    compute_baseline [((0 : ℚ), (1 : ℚ))] 5 6 ≠ .error .EmptyWindowError := by
  have hout : outOfRange [((0 : ℚ), (1 : ℚ))] 5 6 = true := by decide
  refine ⟨by decide, by simp [compute_baseline, hout], by simp [compute_baseline, hout]⟩

/-- Claim C4 amended: compute_baseline fails with OutOfRangeError exactly
when the window lies entirely outside the stream time range, fails with
EmptyWindowError exactly when the window is not entirely outside the
range but no samples fall within it, and otherwise returns a scalar
without error. -/
theorem compute_baseline_error_cases (stream : Stream) (ws we : ℚ) :
    (compute_baseline stream ws we = .error .OutOfRangeError ↔
      outOfRange stream ws we = true) ∧
    (compute_baseline stream ws we = .error .EmptyWindowError ↔
      (outOfRange stream ws we = false ∧ samplesIn stream ws we = [])) ∧
    ((outOfRange stream ws we = false ∧ samplesIn stream ws we ≠ []) →
      ∃ F0, compute_baseline stream ws we = .ok F0) := by
  cases hout : outOfRange stream ws we with
  | true => simp [compute_baseline, hout]
  | false =>
    cases hemp : (samplesIn stream ws we).isEmpty with
    | true =>
      have he : samplesIn stream ws we = [] := by
        simpa [List.isEmpty_iff] using hemp
      simp [compute_baseline, hout, hemp, he]
    | false =>
      have hne : samplesIn stream ws we ≠ [] := by
        simpa [List.isEmpty_iff] using hemp
      simp [compute_baseline, hout, hemp, hne]

/-- Witness for C4: each of the three cases of the amended claim realised
at a concrete input. -/
theorem compute_baseline_error_cases_witness :
    compute_baseline [((0 : ℚ), (1 : ℚ))] 5 6 = .error .OutOfRangeError ∧
    compute_baseline [(0, 1), (3, 4)] 1 2 = .error .EmptyWindowError ∧
    ∃ F0, compute_baseline [(0, 1), (3, 4)] 0 3 = .ok F0 :=
  ⟨(compute_baseline_error_cases [(0, 1)] 5 6).1.mpr (by decide),
   (compute_baseline_error_cases [(0, 1), (3, 4)] 1 2).2.1.mpr
     ⟨by decide, by decide⟩,
   (compute_baseline_error_cases [(0, 1), (3, 4)] 0 3).2.2
     ⟨by decide, by decide⟩⟩

/-! ## align_to_events -/

/-- Interval between the first two samples of the stream, used as the step
of the common relative-time grid; 1 when the stream has fewer than two
samples. -/
def sampleInterval (stream : Stream) : ℚ :=
  match stream with
  | p :: q :: _ => q.1 - p.1
  | _ => 1

/-- Offsets of the common relative-time grid, as integer multiples of the
grid step dt, running from -⌊wb / dt⌋ to ⌊wa / dt⌋. -/
def gridSteps (wb wa dt : ℚ) : List ℤ :=
  (List.range (⌊wb / dt⌋ + ⌊wa / dt⌋ + 1).toNat).map
    fun i : ℕ => (i : ℤ) - ⌊wb / dt⌋

/-- Step of the fold computing the nearest sample: keep whichever of the
accumulated sample and the next sample is nearer to t, the earlier one on
ties. -/
def nearerTo (t : ℚ) (acc : Option (ℚ × ℚ)) (p : ℚ × ℚ) : Option (ℚ × ℚ) :=
  match acc with
  | none => some p
  | some q => if |p.1 - t| < |q.1 - t| then some p else some q

/-- The sample of the stream whose timestamp is nearest to t (the earliest
on ties); none on the empty stream. -/
def nearestSample (stream : Stream) (t : ℚ) : Option (ℚ × ℚ) :=
  stream.foldl (nearerTo t) none

/-- Whether the instant t lies within the time range of the stream. -/
def inRange (stream : Stream) (t : ℚ) : Bool :=
  match stream.head?, stream.getLast? with
  | some f, some l => decide (f.1 ≤ t) && decide (t ≤ l.1)
  | _, _ => false

/-- Whether the whole window of an event lies within the stream range. -/
def windowFits (stream : Stream) (e wb wa : ℚ) : Bool :=
  match stream.head?, stream.getLast? with
  | some f, some l => decide (f.1 ≤ e - wb) && decide (e + wa ≤ l.1)
  | _, _ => false

/-- One aligned segment for the event e: the value at each grid offset is
the value of the sample nearest to the grid time, and a grid time outside
the stream range is marked missing (none). -/
def segmentAt (stream : Stream) (dt : ℚ) (steps : List ℤ) (e : ℚ) :
    List (Option ℚ) :=
  steps.map fun k : ℤ =>
    if inRange stream (e + (k : ℚ) * dt) then
      (nearestSample stream (e + (k : ℚ) * dt)).map Prod.snd
    else none

/-- Boundary policy of align_to_events: a single explicit configuration
flag, per the specification. -/
inductive BoundaryPolicy where
  | exclude
  | pad
  deriving DecidableEq, Repr

/-- Result of align_to_events: the aligned segments and the count of
events excluded from the output. -/
structure AlignResult where
  segments : List (List (Option ℚ))
  excluded : ℕ
  deriving Repr

/-- Modelled from the spec: `align_to_events(stream, events,
window_before, window_after)` is missing from src.  Events outside the
stream time range are discarded (data-model invariant); the remaining
events are placed on a common relative-time grid whose step is the first
sampling interval of the stream, each grid value being the sample nearest
the grid time.  The boundary policy is one explicit flag: under exclusion,
events whose window extends past the first or last sample are dropped and
counted; under padding, every in-range event is kept and grid times
outside the range are marked missing. -/
def align_to_events (stream : Stream) (events : List ℚ) (wb wa : ℚ)
    (policy : BoundaryPolicy) : AlignResult :=
  let evs := events.filter (inRange stream)
  let dt := sampleInterval stream
  let steps := gridSteps wb wa dt
  match policy with
  | .exclude =>
    let kept := evs.filter fun e => windowFits stream e wb wa
    ⟨kept.map (segmentAt stream dt steps), events.length - kept.length⟩
  | .pad => ⟨evs.map (segmentAt stream dt steps), events.length - evs.length⟩

/-- With zero windows the grid is the single offset 0. -/
theorem gridSteps_zero (dt : ℚ) : gridSteps 0 0 dt = [0] := by
  simp [gridSteps, zero_div, List.range_succ]

/-- Folding nearerTo from a present accumulator stays present. -/
theorem foldl_nearerTo_some (t : ℚ) (xs : Stream) (q : ℚ × ℚ) :
    ∃ p, xs.foldl (nearerTo t) (some q) = some p := by
  induction xs generalizing q with
  | nil => exact ⟨q, rfl⟩
  | cons y ys ih =>
    rw [List.foldl_cons]
    by_cases h : |y.1 - t| < |q.1 - t|
    · simpa [nearerTo, h] using ih y
    · simpa [nearerTo, h] using ih q

/-- A nonempty stream always has a nearest sample. -/
theorem nearestSample_isSome (stream : Stream) (t : ℚ) (h : stream ≠ []) :
    ∃ p, nearestSample stream t = some p := by
  cases stream with
  | nil => exact absurd rfl h
  | cons x xs =>
    unfold nearestSample
    rw [List.foldl_cons]
    exact foldl_nearerTo_some t xs x

/-- An instant in range forces the stream to be nonempty. -/
theorem ne_nil_of_inRange (stream : Stream) (t : ℚ)
    (h : inRange stream t = true) : stream ≠ [] := by
  intro hnil
  rw [hnil] at h
  simp [inRange] at h

/-! ## Claim C5: uniform segment length and zero-window alignment -/

/-- Claim C5: for every stream, event set and policy, all segments
returned by align_to_events have the common grid length, hence identical
lengths; and with window_before = window_after = 0 every returned segment
has length 1 and consists of the single sample of the stream nearest to
the timestamp of its event. -/
theorem align_to_events_uniform (stream : Stream) (events : List ℚ)
    (wb wa : ℚ) (policy : BoundaryPolicy) :
    (∀ seg ∈ (align_to_events stream events wb wa policy).segments,
      seg.length = (gridSteps wb wa (sampleInterval stream)).length) ∧
    (∀ seg ∈ (align_to_events stream events 0 0 policy).segments,
      ∃ e ∈ events, ∃ p, nearestSample stream e = some p ∧
        seg = [some p.2]) := by
  constructor
  · intro seg hseg
    cases policy with
    | exclude =>
      simp only [align_to_events, List.mem_map] at hseg
      obtain ⟨e, _, rfl⟩ := hseg
      simp only [segmentAt, List.length_map]
    | pad =>
      simp only [align_to_events, List.mem_map] at hseg
      obtain ⟨e, _, rfl⟩ := hseg
      simp only [segmentAt, List.length_map]
  · intro seg hseg
    have hsteps := gridSteps_zero (sampleInterval stream)
    cases policy with
    | exclude =>
      simp only [align_to_events, List.mem_map] at hseg
      obtain ⟨e, he, rfl⟩ := hseg
      obtain ⟨hef, _⟩ := List.mem_filter.mp he
      obtain ⟨hev, hr⟩ := List.mem_filter.mp hef
      obtain ⟨p, hp⟩ :=
        nearestSample_isSome stream e (ne_nil_of_inRange stream e hr)
      refine ⟨e, hev, p, hp, ?_⟩
      rw [hsteps]
      simp [segmentAt, hr, hp]
    | pad =>
      simp only [align_to_events, List.mem_map] at hseg
      obtain ⟨e, he, rfl⟩ := hseg
      obtain ⟨hev, hr⟩ := List.mem_filter.mp he
      obtain ⟨p, hp⟩ :=
        nearestSample_isSome stream e (ne_nil_of_inRange stream e hr)
      refine ⟨e, hev, p, hp, ?_⟩
      rw [hsteps]
      simp [segmentAt, hr, hp]

/-- Witness for C5: the stream [(0,5),(1,7)] with the single event 1 and
zero windows yields the single-sample segment [some 7]. -/
theorem align_to_events_uniform_witness :
    ∃ e ∈ [(1 : ℚ)], ∃ p, nearestSample [(0, 5), (1, 7)] e = some p ∧
      [some (7 : ℚ)] = [some p.2] := by
  have happ := (align_to_events_uniform [(0, 5), (1, 7)] [1] 0 0 .pad).2
  have hseg : (align_to_events [(0, 5), (1, 7)] [1] 0 0 .pad).segments =
      [[some 7]] := by
    have h1 : inRange [((0 : ℚ), (5 : ℚ)), (1, 7)] 1 = true := by decide
    have h2 : nearestSample [((0 : ℚ), (5 : ℚ)), (1, 7)] 1 = some (1, 7) := by
      norm_num [nearestSample, nearerTo]
    simp [align_to_events, gridSteps_zero, List.filter, h1, segmentAt, h2]
  exact happ [some 7] (by rw [hseg]; exact List.mem_singleton.mpr rfl)

/-! ## Claim C6: a single explicit boundary policy flag -/

/-- Claim C6: boundary handling is governed by the single explicit policy
flag, uniformly over events: under exclusion exactly the in-range events
whose whole window fits are kept and the excluded count reports the rest,
under padding every in-range event is kept; and in the boundary scenario
of the specification (stream spanning [0, 100], event at t = 95,
window_after = 10) exclusion yields no segment with one event counted,
while padding yields the segment whose tail beyond t = 100 is missing. -/
theorem align_to_events_policy :
    (∀ (stream : Stream) (events : List ℚ) (wb wa : ℚ),
      (align_to_events stream events wb wa .exclude).segments.length =
        ((events.filter (inRange stream)).filter
          fun e => windowFits stream e wb wa).length ∧
      (align_to_events stream events wb wa .exclude).excluded =
        events.length - ((events.filter (inRange stream)).filter
          fun e => windowFits stream e wb wa).length ∧
      (align_to_events stream events wb wa .pad).segments.length =
        (events.filter (inRange stream)).length) ∧
    (align_to_events [(0, 7), (10, 8), (100, 9)] [95] 0 10
        .exclude).segments = [] ∧
    (align_to_events [(0, 7), (10, 8), (100, 9)] [95] 0 10
        .exclude).excluded = 1 ∧
    (align_to_events [(0, 7), (10, 8), (100, 9)] [95] 0 10
        .pad).segments = [[some 9, none]] := by
  have hgen : ∀ (stream : Stream) (events : List ℚ) (wb wa : ℚ),
      (align_to_events stream events wb wa .exclude).segments.length =
        ((events.filter (inRange stream)).filter
          fun e => windowFits stream e wb wa).length ∧
      (align_to_events stream events wb wa .exclude).excluded =
        events.length - ((events.filter (inRange stream)).filter
          fun e => windowFits stream e wb wa).length ∧
      (align_to_events stream events wb wa .pad).segments.length =
        (events.filter (inRange stream)).length := by
    intro stream events wb wa
    refine ⟨?_, ?_, ?_⟩ <;> simp [align_to_events]
  have hdt : sampleInterval [(0, 7), (10, 8), (100, 9)] = 10 := by
    norm_num [sampleInterval]
  have hsteps : gridSteps 0 10 10 = [0, 1] := by
    unfold gridSteps
    norm_num
    decide
  have hr : inRange [((0 : ℚ), (7 : ℚ)), (10, 8), (100, 9)] 95 = true := by
    decide
  have hw : windowFits [((0 : ℚ), (7 : ℚ)), (10, 8), (100, 9)] 95 0 10 =
      false := by
    norm_num [windowFits]
  have hnear : nearestSample [((0 : ℚ), (7 : ℚ)), (10, 8), (100, 9)] 95 =
      some (100, 9) := by
    norm_num [nearestSample, nearerTo]
  have hseg : segmentAt [((0 : ℚ), (7 : ℚ)), (10, 8), (100, 9)] 10 [0, 1]
      95 = [some 9, none] := by
    have h105 : inRange [((0 : ℚ), (7 : ℚ)), (10, 8), (100, 9)]
        (95 + 10) = false := by
      norm_num [inRange]
    have h95 : (95 + (0 : ℚ) * 10) = (95 : ℚ) := by norm_num
    simp [segmentAt, Int.cast_zero, Int.cast_one, h95, hr, h105, hnear]
  refine ⟨hgen, ?_, ?_, ?_⟩
  · simp [align_to_events, List.filter_cons, hr, hw]
  · simp [align_to_events, List.filter_cons, hr, hw]
  · simp only [align_to_events, List.filter_cons, hr, if_true,
      List.filter_nil, hdt, hsteps, List.map_cons, List.map_nil, hseg]

/-! ## average_segments and Claim C8 -/

/-- Per-index combination used by average_segments: the mean of the values
present at index i across the segments, or missing when every segment is
missing there. -/
def colMean (segs : List (List (Option ℚ))) (i : ℕ) : Option ℚ :=
  let vals := segs.filterMap fun t => t.getD i none
  if vals.isEmpty then none else some (mean vals)

/-- Modelled from the spec: `average_segments(segments)` is missing from
src.  Fails with EmptyInputError on the empty sequence and with
LengthMismatchError when segments differ in length; otherwise returns,
per relative-time index, the mean across all segments of the values
present there, ignoring missing positions. -/
def average_segments (segs : List (List (Option ℚ))) :
    Except PipelineError (List (Option ℚ)) :=
  match segs with
  | [] => .error .EmptyInputError
  | s :: rest =>
    if rest.all fun t => t.length == s.length then
      .ok ((List.range s.length).map (colMean (s :: rest)))
    else .error .LengthMismatchError

/-- The mean of a one-element list is its element. -/
theorem mean_singleton (v : ℚ) : mean [v] = v := by
  simp [mean]

/-- On a single segment the per-index combination returns the original
entry. -/
theorem colMean_singleton (s : List (Option ℚ)) (i : ℕ) (hi : i < s.length) :
    colMean [s] i = s.get ⟨i, hi⟩ := by
  have hgetd : s.getD i none = s.get ⟨i, hi⟩ := by
    rw [List.getD_eq_getElem?_getD, List.getElem?_eq_getElem hi]
    rfl
  cases hsi : s.get ⟨i, hi⟩ with
  | none =>
    have hfm : ([s].filterMap fun t => t.getD i none) = [] := by
      simp only [List.filterMap_cons, List.filterMap_nil]
      rw [hgetd, hsi]
    unfold colMean
    rw [hfm]
    rfl
  | some v =>
    have hfm : ([s].filterMap fun t => t.getD i none) = [v] := by
      simp only [List.filterMap_cons, List.filterMap_nil]
      rw [hgetd, hsi]
    unfold colMean
    rw [hfm]
    simp [mean_singleton]

/-- Claim C8: average_segments fails with EmptyInputError on the empty
sequence and with LengthMismatchError whenever two input segments differ
in length; on equal-length segments it returns, per relative-time index,
the mean of the values present at that index across all segments,
ignoring missing positions; in particular a single-segment input is
returned unchanged. -/
theorem average_segments_spec :
    (average_segments [] = .error .EmptyInputError) ∧
    (∀ segs s t, s ∈ segs → t ∈ segs → s.length ≠ t.length →
      average_segments segs = .error .LengthMismatchError) ∧
    (∀ s rest, (∀ t ∈ rest, List.length t = s.length) →
      ∃ out, average_segments (s :: rest) = .ok out ∧
        out.length = s.length ∧
        ∀ i : ℕ, i < s.length →
          out[i]? = some
            (if ((s :: rest).filterMap fun t => t.getD i none).isEmpty
             then none
             else some (mean ((s :: rest).filterMap fun t => t.getD i none)))) ∧
    (∀ s, average_segments [s] = .ok s) := by
  refine ⟨rfl, ?_, ?_, ?_⟩
  · intro segs s t hs ht hne
    cases segs with
    | nil => exact absurd hs (List.not_mem_nil s)
    | cons s0 rest =>
      have hu : ∃ u ∈ rest, List.length u ≠ s0.length := by
        by_cases h1 : s.length = s0.length
        · have h2 : t.length ≠ s0.length := fun h => hne (h1.trans h.symm)
          cases List.mem_cons.mp ht with
          | inl h => exact absurd (congrArg List.length h) h2
          | inr h => exact ⟨t, h, h2⟩
        · cases List.mem_cons.mp hs with
          | inl h => exact absurd (congrArg List.length h) h1
          | inr h => exact ⟨s, h, h1⟩
      obtain ⟨u, hu, hul⟩ := hu
      have hall : (rest.all fun t => t.length == s0.length) = false := by
        rw [List.all_eq_false]
        exact ⟨u, hu, by simpa using hul⟩
      simp [average_segments, hall]
  · intro s rest hlen
    have hall : (rest.all fun t => t.length == s.length) = true := by
      rw [List.all_eq_true]
      intro t ht
      simpa using hlen t ht
    refine ⟨(List.range s.length).map (colMean (s :: rest)), ?_, by simp, ?_⟩
    · simp [average_segments, hall]
    · intro i hi
      rw [List.getElem?_map, List.getElem?_range hi]
      rfl
  · intro s
    have hmain : average_segments [s] =
        .ok ((List.range s.length).map (colMean [s])) := by
      simp [average_segments]
    rw [hmain]
    congr 1
    apply List.ext_getElem?
    intro i
    by_cases hi : i < s.length
    · rw [List.getElem?_map, List.getElem?_range hi, List.getElem?_eq_getElem hi]
      show some (colMean [s] i) = some (s.get ⟨i, hi⟩)
      rw [colMean_singleton s i hi]
    · have h1 : i ≥ s.length := Nat.le_of_not_lt hi
      rw [List.getElem?_eq_none, List.getElem?_eq_none h1]
      simpa using h1

/-- Witness for C8: the empty input, the 5-versus-6 mismatch of the
specification, and a single two-position segment returned unchanged. -/
theorem average_segments_spec_witness :
    average_segments [] = .error .EmptyInputError ∧
    average_segments [List.replicate 5 none, List.replicate 6 none] =
      .error .LengthMismatchError ∧
    average_segments [[some 1, none]] = .ok [some 1, none] :=
  ⟨average_segments_spec.1,
   average_segments_spec.2.1 [List.replicate 5 none, List.replicate 6 none]
     (List.replicate 5 none) (List.replicate 6 none)
     (by simp) (by simp) (by simp),
   average_segments_spec.2.2.2 [some 1, none]⟩

/-! ## Arduino sketch weili_cfcCtxA_fiber_20240604.ino -/

/-- Digital output pins driven by the sketch. -/
inductive PinId where
  | shockPin
  | ledPin
  | fiberPin
  deriving DecidableEq, Repr

/-- Pre-shock delay of the sketch, in milliseconds (line 16). -/
def preShockDelay : ℕ := 180000

/-- Post-shock interval of the sketch, in milliseconds (line 18). -/
def postShockInt : ℕ := 60000

/-- Shock duration of the sketch, in milliseconds (line 19). -/
def shockDur : ℕ := 2000

/-- One observable action of the sketch: a digital write or a delay. -/
inductive Action where
  | write (p : PinId) (level : Bool)
  | delayMs (ms : ℕ)
  deriving DecidableEq, Repr

/-- State of the board: the trigger latch and the three output pins. -/
structure ArduinoState where
  hasTrig : ℕ
  shockPin : Bool
  ledPin : Bool
  fiberPin : Bool
  deriving DecidableEq, Repr

/-- Action sequence of shockDeliver (sketch lines 74 to 88): led on, shock
on, fiber on, wait shockDur, shock off, fiber on, led off. -/
def shockDeliverActions : List Action :=
  [.write .ledPin true,
   .write .shockPin true,
   .write .fiberPin true,
   .delayMs shockDur,
   .write .shockPin false,
   .write .fiberPin true,
   .write .ledPin false]

/-- Effect of one action on the board state. -/
def applyAction (s : ArduinoState) (a : Action) : ArduinoState :=
  match a with
  | .write .shockPin b => { s with shockPin := b }
  | .write .ledPin b => { s with ledPin := b }
  | .write .fiberPin b => { s with fiberPin := b }
  | .delayMs _ => s

/-- Effect of a sequence of actions on the board state. -/
def runActions (s : ArduinoState) (actions : List Action) : ArduinoState :=
  actions.foldl applyAction s

/-- The shockDeliver subroutine of the sketch. -/
def shockDeliver (s : ArduinoState) : ArduinoState :=
  runActions s shockDeliverActions

/-- Action sequence of the triggered session body (sketch lines 45 to 68):
fiber pulse, pre-shock delay, shockDeliver, fiber low, post-shock wait,
end pulse. -/
def sessionActions : List Action :=
  [.write .fiberPin true, .delayMs 1000, .write .fiberPin false,
   .delayMs preShockDelay] ++
  shockDeliverActions ++
  [.write .fiberPin false, .delayMs postShockInt,
   .write .fiberPin true, .delayMs 500, .write .fiberPin false]

/-- One iteration of loop (sketch lines 43 to 71): when the button reads
LOW and the latch is clear, the session body runs and finally sets the
latch (line 69); otherwise nothing happens.  The returned flag reports
whether the session ran. -/
def loopStep (buttonLow : Bool) (s : ArduinoState) : ArduinoState × Bool :=
  if buttonLow && s.hasTrig == 0 then
    ({ runActions s sessionActions with hasTrig := 1 }, true)
  else (s, false)

/-- Repeated iterations of loop over a sequence of button readings,
counting completed sessions. -/
def runLoop (inputs : List Bool) (s : ArduinoState) : ArduinoState × ℕ :=
  match inputs with
  | [] => (s, 0)
  | b :: rest =>
    let step := loopStep b s
    let next := runLoop rest step.1
    (next.1, (if step.2 then 1 else 0) + next.2)

/-- State after setup: latch clear, outputs low. -/
def initialState : ArduinoState :=
  { hasTrig := 0, shockPin := false, ledPin := false, fiberPin := false }

/-- With the latch set, loop never runs the session again. -/
theorem runLoop_latched (inputs : List Bool) (s : ArduinoState)
    (h : s.hasTrig ≠ 0) : (runLoop inputs s).2 = 0 := by
  induction inputs generalizing s with
  | nil => rfl
  | cons b rest ih =>
    have hc : (b && s.hasTrig == 0) = false := by
      cases b
      · rfl
      · simpa using h
    simp only [runLoop, loopStep, hc, Bool.false_eq_true, if_false]
    simpa using ih s h

/-- The session count of runLoop never exceeds one from any state. -/
theorem runLoop_le_one (inputs : List Bool) (s : ArduinoState) :
    (runLoop inputs s).2 ≤ 1 := by
  induction inputs generalizing s with
  | nil => simp [runLoop]
  | cons b rest ih =>
    by_cases hc : (b && s.hasTrig == 0) = true
    · have hz : (runLoop rest
          ({ runActions s sessionActions with hasTrig := 1 }
            : ArduinoState)).2 = 0 :=
        runLoop_latched rest _ (by simp)
      simp [runLoop, loopStep, hc, hz]
    · have hc' : (b && s.hasTrig == 0) = false := by
        simpa using hc
      simp only [runLoop, loopStep, hc', Bool.false_eq_true, if_false]
      simpa using ih s

/-! ## Claim C9: the triggered session runs at most once per power-up -/

/-- Claim C9: the trigger branch of loop runs only when the latch hasTrig
is 0 and sets it to 1 on completion, so from the power-up state the shock
session runs at most once, and from any latched state it never runs
again. -/
theorem session_at_most_once :
    (∀ (b : Bool) (s : ArduinoState), (loopStep b s).2 = true →
      s.hasTrig = 0 ∧ (loopStep b s).1.hasTrig = 1) ∧
    (∀ (inputs : List Bool) (s : ArduinoState), s.hasTrig ≠ 0 →
      (runLoop inputs s).2 = 0) ∧
    (∀ inputs : List Bool, (runLoop inputs initialState).2 ≤ 1) := by
  refine ⟨?_, fun inputs s h => runLoop_latched inputs s h,
    fun inputs => runLoop_le_one inputs initialState⟩
  intro b s hran
  by_cases hc : (b && s.hasTrig == 0) = true
  · refine ⟨by simpa using (Bool.and_eq_true _ _).mp hc |>.2, ?_⟩
    simp [loopStep, hc]
  · have hc' : (b && s.hasTrig == 0) = false := by simpa using hc
    simp [loopStep, hc'] at hran

/-- Witness for C9: from the power-up state a LOW button reading runs the
session and sets the latch, and from the latched state no further session
runs. -/
theorem session_at_most_once_witness :
    (initialState.hasTrig = 0 ∧ (loopStep true initialState).1.hasTrig = 1) ∧
    (runLoop [true, true]
      ({ hasTrig := 1, shockPin := false, ledPin := false, fiberPin := false }
        : ArduinoState)).2 = 0 :=
  ⟨session_at_most_once.1 true initialState (by decide),
   session_at_most_once.2.1 [true, true] _ (by decide)⟩

/-! ## Claim C10: shockDeliver never leaves the shock on -/

/-- Claim C10: shockDeliver writes shockPin HIGH, waits shockDur
milliseconds, then writes shockPin LOW, performing no later shockPin
write, and on return shockPin and ledPin are LOW while fiberPin is HIGH,
from any starting state. -/
theorem shockDeliver_off (s : ArduinoState) :
    (shockDeliver s).shockPin = false ∧
    (shockDeliver s).ledPin = false ∧
    (shockDeliver s).fiberPin = true ∧
    (shockDeliver s).hasTrig = s.hasTrig ∧
    shockDeliverActions[1]? = some (.write .shockPin true) ∧
    shockDeliverActions[3]? = some (.delayMs shockDur) ∧
    shockDeliverActions[4]? = some (.write .shockPin false) ∧
    (∀ i : ℕ, 4 < i → ∀ b, shockDeliverActions[i]? ≠
      some (.write .shockPin b)) := by
  refine ⟨rfl, rfl, rfl, rfl, rfl, rfl, rfl, ?_⟩
  intro i hi b
  by_cases h7 : i < 7
  · interval_cases i
    · cases b <;> decide
    · cases b <;> decide
  · have hlen : shockDeliverActions.length ≤ i := by
      have : 7 ≤ i := Nat.le_of_not_lt h7
      simpa [shockDeliverActions] using this
    rw [List.getElem?_eq_none hlen]
    simp

/-- Witness for C10: the conclusion realised at the power-up state, with
the no-later-write conjunct applied at index 5. -/
theorem shockDeliver_off_witness :
    (shockDeliver initialState).shockPin = false ∧
    shockDeliverActions[5]? ≠ some (.write .shockPin true) :=
  ⟨(shockDeliver_off initialState).1,
   (shockDeliver_off initialState).2.2.2.2.2.2.2 5 (by decide) true⟩

end FiberPhotometry
